import Mathlib

/-!
FakeFireLED.c — a shallow embedding

The controller of `AVR Studio Code/FakeFireLED.c` (ATtiny13A) is embedded as pure
functions over an explicit machine state.  Machine integers are natural numbers
(or integers, for the signed `int`) with explicit reduction modulo `2^w` wherever
the C code can wrap.  On the AVR target `int` is 16 bits wide, so `uint16_t`
operands are not promoted to anything wider.
-/

namespace FakeFire

/-! ## Bit positions and constants -/

/-- Bit position of `PINB0` (device header `avr/io.h`, ATtiny13A). -/
def PINB0 : Nat := 0
/-- Bit position of `PINB1` (device header `avr/io.h`, ATtiny13A). -/
def PINB1 : Nat := 1
/-- Bit position of `PINB2` (device header `avr/io.h`, ATtiny13A). -/
def PINB2 : Nat := 2
/-- Bit position of `PINB3` (device header `avr/io.h`, ATtiny13A). -/
def PINB3 : Nat := 3

/-- Source: `#define LED_ORANGE1 PINB0`. -/
def LED_ORANGE1 : Nat := PINB0
/-- Source: `#define LED_ORANGE2 PINB1`. -/
def LED_ORANGE2 : Nat := PINB1
/-- Source: `#define LED_RED1 PINB2`. -/
def LED_RED1 : Nat := PINB2
/-- Source: `#define LED_RED2 PINB3`. -/
def LED_RED2 : Nat := PINB3

/-- Bits of `MCUSR`, `WDTCR`, `MCUCR`, `ADMUX` and `ADCSRA` (device header, ATtiny13A). -/
def WDRF : Nat := 3
def WDTIE : Nat := 6
def WDP3 : Nat := 5
def WDCE : Nat := 4
def WDE : Nat := 3
def WDP0 : Nat := 0
def SE : Nat := 5
def SM1 : Nat := 4
def SM0 : Nat := 3
def MUX1 : Nat := 1
def ADEN : Nat := 7
def ADSC : Nat := 6
def ADIF : Nat := 4
def ADPS1 : Nat := 1
def ADPS0 : Nat := 0

/-- Source: `uint8_t PHOTO_VALUE = 10;` — a global that is initialised and never
assigned again, hence a constant of the program. -/
def PHOTO_VALUE : Nat := 10

/-! ## Machine state -/

/-- The program variables of `FakeFireLED.c`, the I/O registers it touches, and
one bookkeeping counter (`adcCount`: how many ADC conversions have been started
since reset; it indexes the stream of conversion results the environment supplies). -/
structure State where
  /-- Source: `volatile int f_wdt`. -/
  f_wdt : Int
  /-- Source: `uint16_t randreg`. -/
  randreg : Nat
  /-- Source: `uint8_t adcValue`. -/
  adcValue : Nat
  /-- Source: `uint8_t i`. -/
  i : Nat
  /-- Source: `uint16_t j`. -/
  j : Nat
  /-- Source: `uint8_t flickerLEDs`. -/
  flickerLEDs : Nat
  PORTB : Nat
  DDRB : Nat
  MCUSR : Nat
  WDTCR : Nat
  MCUCR : Nat
  ADMUX : Nat
  ADCSRA : Nat
  ADCL : Nat
  ADCH : Nat
  /-- Global interrupt enable flag of `SREG`. -/
  sregI : Bool
  /-- Number of ADC conversions started so far. -/
  adcCount : Nat
deriving DecidableEq, Repr

/-- The stream of raw conversion results of the analog front end: `adc n` is the
value the `n`-th conversion since reset delivers. -/
abbrev AdcStream := Nat → Nat

/-- State after reset and C start-up: the initialisers of the globals
(`f_wdt = 1`, `randreg = 10`, all others `0`), I/O registers at their reset value. -/
def reset : State :=
  { f_wdt := 1, randreg := 10, adcValue := 0, i := 0, j := 0, flickerLEDs := 0,
    PORTB := 0, DDRB := 0, MCUSR := 0, WDTCR := 0, MCUCR := 0, ADMUX := 0,
    ADCSRA := 0, ADCL := 0, ADCH := 0, sregI := false, adcCount := 0 }

/-! ## The pseudo random number generator -/

/-- Lines 69–71 of `pseudorandom16`: `if (randreg == 0) randreg = 1;`. -/
def reseed (randreg : Nat) : Nat :=
  if randreg = 0 then 1 else randreg

/-- Lines 68 and 72–75 of `pseudorandom16`: the feedback bit computed from the
taps `0x8000`, `0x4000`, `0x1000` and `0x0008`. -/
def feedback (randreg : Nat) : Nat :=
  let newbit := 0
  let newbit := if randreg &&& 0x8000 ≠ 0 then 1 else newbit
  let newbit := if randreg &&& 0x4000 ≠ 0 then newbit ^^^ 1 else newbit
  let newbit := if randreg &&& 0x1000 ≠ 0 then newbit ^^^ 1 else newbit
  let newbit := if randreg &&& 0x0008 ≠ 0 then newbit ^^^ 1 else newbit
  newbit

/-- Lines 72–77 of `pseudorandom16`, the recurrence proper:
`randreg = (randreg << 1) + newbit`, in 16-bit unsigned arithmetic. -/
def shiftFeedback (randreg : Nat) : Nat :=
  (((randreg <<< 1) % 65536) + feedback randreg) % 65536

/-- Register-level view of `pseudorandom16`: the value stored to `randreg`
(which is also the value returned). -/
def nextRandreg (randreg : Nat) : Nat :=
  shiftFeedback (reseed randreg)

/-- Source: `static uint16_t pseudorandom16(void)`; returns the result and the
state after the call. -/
def pseudorandom16 (s : State) : Nat × State :=
  let s1 := { s with randreg := reseed s.randreg }
  let s2 := { s1 with randreg := shiftFeedback s1.randreg }
  (s2.randreg, s2)

/-! ## The analog sampler -/

/-- Reduction of a mathematical integer to the 16-bit two's-complement `int` of the target. -/
def wrapInt16 (x : Int) : Int :=
  (x + 32768) % 65536 - 32768

/-- One single conversion, lines 94–97 / 102–104:
`ADCSRA |= (1<<ADSC); while(!(ADCSRA & 0x10));`.  The hardware takes the next
value of the stream, clears `ADSC`, raises `ADIF` (bit 4) and loads the right
adjusted result into `ADCL` (low byte) and `ADCH` (high byte); the busy wait
ends when `ADIF` is seen. -/
def adcConvert (adc : AdcStream) (s : State) : State :=
  let raw := adc s.adcCount
  { s with
    ADCSRA := ((s.ADCSRA ||| (1 <<< ADSC)) &&& (255 ^^^ (1 <<< ADSC))) ||| (1 <<< ADIF)
    ADCL := raw % 256
    ADCH := raw / 256 % 256
    adcCount := s.adcCount + 1 }

/-- Body of the `for` loop of `ADC_read` (lines 102–111): one conversion, then
`ADC_temp = ADCL; ADC_temp += (ADCH << 8); ADCr += ADC_temp;` in 16-bit `int`. -/
def adcAccumulate (adc : AdcStream) (p : Int × State) : Int × State :=
  let s1 := adcConvert adc p.2
  let ADC_temp : Int := (s1.ADCL : Int)
  let ADC_temp : Int := wrapInt16 (ADC_temp + wrapInt16 ((s1.ADCH : Int) * 256))
  (wrapInt16 (p.1 + ADC_temp), s1)

/-- The loop `for(i=0;i<8;i++)` of `ADC_read`, with its local counter `i`;
`fuel` bounds the number of iterations still allowed. -/
def adcLoop (adc : AdcStream) : Nat → Nat → Int × State → Int × State
  | 0, _, p => p
  | fuel + 1, i, p => if i < 8 then adcLoop adc fuel (i + 1) (adcAccumulate adc p) else p

/-- Source: `int ADC_read(void)`; returns the result and the state after the call. -/
def ADC_read (adc : AdcStream) (s : State) : Int × State :=
  let ADCr : Int := 0
  let s1 := { s with ADCSRA := 1 <<< ADEN }
  let s2 := adcConvert adc s1
  let p := adcLoop adc 8 0 (ADCr, s2)
  let ADCr := p.1 >>> 3
  let s3 := { p.2 with ADCSRA := 0 <<< ADEN }
  (ADCr, s3)

/-- Source: `void ADC_init(void)`. -/
def ADC_init (s : State) : State :=
  { s with ADMUX := 1 <<< MUX1, ADCSRA := (1 <<< ADPS1) ||| (1 <<< ADPS0) }

/-! ## Watchdog and sleep -/

/-- Source: `ISR(WDT_vect)`. -/
def ISR_WDT_vect (s : State) : State :=
  { s with f_wdt := 1 }

/-- Source: `void setup_watchdog(void)`. -/
def setup_watchdog (s : State) : State :=
  let s1 := { s with MCUSR := s.MCUSR &&& (255 ^^^ (1 <<< WDRF)) }
  let s2 := { s1 with WDTCR := s1.WDTCR ||| ((1 <<< WDCE) ||| (1 <<< WDE)) }
  let s3 := { s2 with WDTCR := s2.WDTCR ||| ((1 <<< WDP3) ||| (1 <<< WDP0) ||| (1 <<< WDTIE)) }
  { s3 with sregI := true }

/-- Source: `void system_sleep(void)`.  `set_sleep_mode(SLEEP_MODE_PWR_DOWN)`
selects `SM1` in `MCUCR`, `sleep_enable`/`sleep_mode` set `SE`; the processor
then halts until the watchdog times out, the handler `ISR(WDT_vect)` runs, and
`sleep_disable` clears `SE`. -/
def system_sleep (s : State) : State :=
  let s1 := { s with MCUCR := (s.MCUCR &&& (255 ^^^ ((1 <<< SM0) ||| (1 <<< SM1)))) ||| (1 <<< SM1) }
  let s2 := { s1 with MCUCR := s1.MCUCR ||| (1 <<< SE) }
  let s3 := ISR_WDT_vect s2
  { s3 with MCUCR := s3.MCUCR &&& (255 ^^^ (1 <<< SE)) }

/-! ## The main loop -/

/-- Lines 144–156 of `main`: the wake handling at the top of a loop iteration
(no watchdog timeout arriving while it runs). -/
def wakeHandling (adc : AdcStream) (s : State) : State :=
  if s.f_wdt = 1 then
    let s1 := ADC_init s
    let r := ADC_read adc s1
    let s2 := { r.2 with adcValue := (r.1 % 256).toNat }
    let s3 := if s2.adcValue < PHOTO_VALUE then { s2 with flickerLEDs := 1 }
              else { s2 with flickerLEDs := 0 }
    { s3 with f_wdt := 0 }
  else s

/-- Lines 166–168 of `main`, the body of the flicker loop:
`if(pseudorandom16() > j){ PORTB ^= (1<<i); }`. -/
def flickerBody (s : State) : State :=
  let r := pseudorandom16 s
  if r.1 > r.2.j then { r.2 with PORTB := (r.2.PORTB ^^^ (1 <<< r.2.i)) % 256 } else r.2

/-- The loop `for(i=0;i<4;i++)` of `main` after its initialisation `i=0`, over the
global counter `i`; `fuel` bounds the number of iterations still allowed. -/
def flickerLoop : Nat → State → State
  | 0, s => s
  | fuel + 1, s =>
    if s.i < 4 then
      let s1 := flickerBody s
      flickerLoop fuel { s1 with i := (s1.i + 1) % 256 }
    else s

/-- Lines 162–170 of `main`: one Dark-mode flicker iteration (`_delay_ms(6)`
changes no state). -/
def darkBranch (s : State) : State :=
  let s1 := { s with DDRB := (1 <<< LED_ORANGE1) ||| (1 <<< LED_ORANGE2) |||
                              (1 <<< LED_RED1) ||| (1 <<< LED_RED2) }
  let r := pseudorandom16 s1
  let s2 := { r.2 with j := r.1 }
  flickerLoop 4 { s2 with i := 0 }

/-- Lines 173–175 of `main`: the state in which `system_sleep` is invoked. -/
def lightBeforeSleep (s : State) : State :=
  let s1 := { s with PORTB := 0x00 }
  { s1 with DDRB := 0x00 }

/-- Lines 173–177 of `main`: the Light branch. -/
def lightBranch (s : State) : State :=
  system_sleep (lightBeforeSleep s)

/-- Lines 159–178 of `main`: the branch on `flickerLEDs`. -/
def modeBranch (s : State) : State :=
  if s.flickerLEDs = 1 then darkBranch s else lightBranch s

/-- One iteration of `while(1)` in `main`.  `timeout` tells whether a watchdog
timeout arrives (and its handler runs) after the wake flag has been consumed and
before the iteration ends. -/
def loopIteration (adc : AdcStream) (timeout : Bool) (s : State) : State :=
  let s1 := modeBranch (wakeHandling adc s)
  if timeout then ISR_WDT_vect s1 else s1

/-- Lines 138–140 of `main`: the code that runs once before the loop. -/
def mainInit (s : State) : State :=
  setup_watchdog { s with MCUCR := (1 <<< SE) ||| (1 <<< SM1) }

/-- The state at the boundary after `n` iterations of the main loop, from reset;
`timeouts k` is the timeout input of iteration `k`. -/
def runMain (adc : AdcStream) (timeouts : Nat → Bool) : Nat → State
  | 0 => mainInit reset
  | n + 1 => loopIteration adc (timeouts n) (runMain adc timeouts n)

/-- The generator of spec section 4.1 in the spec's own words: reseed a zero
state to 1, XOR the bits 15, 14, 12 and 3 into a feedback bit, shift the state
left by one (16 bits wide) and OR the feedback bit in at position 0. -/
def specNext (state : Nat) : Nat :=
  let s' := if state = 0 then 1 else state
  let f := (Bool.xor (Bool.xor (Bool.xor (s'.testBit 15) (s'.testBit 14)) (s'.testBit 12))
    (s'.testBit 3)).toNat
  ((s' <<< 1) % 2 ^ 16) ||| f

/-- The state after `n` consecutive calls of `pseudorandom16`. -/
def afterCalls (n : Nat) (s : State) : State :=
  (fun t => (pseudorandom16 t).2)^[n] s

/-- The sum of the eight conversions that follow the warm-up conversion when
`ADC_read` is entered with `n` conversions already made: conversion `n` is the
warm-up, conversions `n+1 .. n+8` are the ones read. -/
def sampleSum (adc : AdcStream) (n : Nat) : Nat :=
  adc (n + 1) + adc (n + 2) + adc (n + 3) + adc (n + 4) +
  adc (n + 5) + adc (n + 6) + adc (n + 7) + adc (n + 8)

/-- The value returned by the `(n+1)`-th call of `pseudorandom16` from state `s`. -/
def draw (n : Nat) (s : State) : Nat :=
  (pseudorandom16 (afterCalls n s)).1

/-- The four statements of `setup_watchdog` in source order (lines 59, 60, 61
and 62), each as a state transformer. -/
def setupWatchdogStmts : List (State → State) :=
  [ fun s => { s with MCUSR := s.MCUSR &&& (255 ^^^ (1 <<< WDRF)) },
    fun s => { s with WDTCR := s.WDTCR ||| ((1 <<< WDCE) ||| (1 <<< WDE)) },
    fun s => { s with WDTCR := s.WDTCR ||| ((1 <<< WDP3) ||| (1 <<< WDP0) ||| (1 <<< WDTIE)) },
    fun s => { s with sregI := true } ]

/-- The state after the first `k` statements of `setup_watchdog`. -/
def setupWatchdogAfter (k : Nat) (s : State) : State :=
  (setupWatchdogStmts.take k).foldl (fun t f => f t) s

/-- An arithmetic form of the generator step `nextRandreg` (the reseed of zero,
the doubling modulo `2^16`, and the parity of the four tapped bits), used to
evaluate long runs of the generator; `stepFast_eq` proves the two equal. -/
def stepFast (x : Nat) : Nat :=
  bif Nat.beq x 0 then 2 else
    Nat.mod (Nat.add (Nat.mul x 2)
      (Nat.mod (Nat.add (Nat.add (Nat.div x 32768) (Nat.div x 16384))
        (Nat.add (Nat.div x 4096) (Nat.div x 8))) 2)) 65536

/-- Runs the generator step `n` times from `x`; the result is `none` when one of
these `n` steps produces `seed`, and the state reached otherwise. -/
def walkAvoiding (seed : Nat) : Nat → Nat → Option Nat
  | 0, x => some x
  | n + 1, x => bif Nat.beq (stepFast x) seed then none else walkAvoiding seed n (stepFast x)

/-- Runs `walkAvoiding` in stretches of `len` steps, comparing the state reached
after each stretch with the next recorded mark. -/
def walkMarks (seed len : Nat) : Nat → List Nat → Option Nat
  | a, [] => some a
  | a, b :: rest =>
    match walkAvoiding seed len a with
    | none => none
    | some y => bif Nat.beq y b then walkMarks seed len b rest else none

/-- The generator states reached from the seed 10 after 1057, 2114, ..., 65534
steps (62 marks, 1057 steps apart). -/
def seedOrbitMarks : List Nat :=
  [
    30739, 38728, 62759, 27575, 13882, 57243, 52841, 48751, 52897, 36798,
    24702, 56149, 56422, 53468, 436, 18420, 23664, 29436, 2179, 58077,
    62879, 48810, 9071, 63845, 24447, 61946, 41360, 64288, 22051, 2081,
    1020, 37559, 32175, 47994, 63395, 48942, 45290, 35402, 7399, 24228,
    56055, 65459, 58529, 53110, 62638, 9261, 40209, 63465, 63360, 45943,
    15388, 64899, 46392, 18051, 56900, 54639, 59804, 6556, 34653, 10816,
    28789, 5 ]

/-! ## Bit-level lemmas -/

theorem and_two_pow_eq (r k : Nat) : r &&& 2 ^ k = if r.testBit k then 2 ^ k else 0 := by
  apply Nat.eq_of_testBit_eq
  intro i
  by_cases h : r.testBit k = true
  · by_cases hik : k = i
    · subst hik; simp [h]
    · simp [h, Nat.testBit_two_pow, hik]
  · by_cases hik : k = i
    · subst hik; simp [h]
    · simp [h, Nat.testBit_two_pow, hik]

theorem and_two_pow_ne_zero (r k : Nat) : r &&& 2 ^ k ≠ 0 ↔ r.testBit k = true := by
  rw [and_two_pow_eq]
  by_cases h : r.testBit k = true
  · simp [h]
  · simp [h]

theorem feedback_eq_xor (r : Nat) :
    feedback r = (Bool.xor (Bool.xor (Bool.xor (r.testBit 15) (r.testBit 14)) (r.testBit 12))
      (r.testBit 3)).toNat := by
  have h15 := and_two_pow_ne_zero r 15
  have h14 := and_two_pow_ne_zero r 14
  have h12 := and_two_pow_ne_zero r 12
  have h3 := and_two_pow_ne_zero r 3
  norm_num at h15 h14 h12 h3
  unfold feedback
  simp only [h15, h14, h12, h3]
  cases r.testBit 15 <;> cases r.testBit 14 <;> cases r.testBit 12 <;> cases r.testBit 3 <;> rfl

theorem feedback_le_one (r : Nat) : feedback r ≤ 1 := by
  rw [feedback_eq_xor]
  exact Bool.toNat_le _

theorem shiftFeedback_eq_or (r : Nat) :
    shiftFeedback r = ((r <<< 1) % 2 ^ 16) ||| feedback r := by
  have hf := feedback_le_one r
  have hs : (r <<< 1) % 65536 = 2 ^ 1 * (r % 32768) := by
    rw [Nat.shiftLeft_eq]; omega
  unfold shiftFeedback
  have hlt : (r <<< 1) % 65536 + feedback r < 65536 := by omega
  rw [Nat.mod_eq_of_lt hlt]
  show (r <<< 1) % 65536 + feedback r = ((r <<< 1) % 65536) ||| feedback r
  rw [hs]
  exact Nat.mul_add_lt_is_or (by omega) _

theorem reseed_ne_zero (r : Nat) : reseed r ≠ 0 := by
  unfold reseed
  split <;> omega

theorem reseed_lt (r : Nat) (h : r < 65536) : reseed r < 65536 := by
  unfold reseed
  split <;> omega

theorem shiftFeedback_lt (r : Nat) : shiftFeedback r < 65536 := by
  unfold shiftFeedback
  omega

theorem shiftFeedback_ne_zero (r : Nat) (h0 : r ≠ 0) (h : r < 65536) : shiftFeedback r ≠ 0 := by
  intro hz
  have hf := feedback_le_one r
  unfold shiftFeedback at hz
  rw [Nat.shiftLeft_eq] at hz
  have hr : r = 32768 := by omega
  subst hr
  exact absurd hz (by decide)

theorem nextRandreg_ne_zero (r : Nat) (h : r < 65536) : nextRandreg r ≠ 0 :=
  shiftFeedback_ne_zero _ (reseed_ne_zero r) (reseed_lt r h)

theorem pseudorandom16_randreg (s : State) : (pseudorandom16 s).2.randreg = nextRandreg s.randreg :=
  rfl

theorem pseudorandom16_fst (s : State) : (pseudorandom16 s).1 = nextRandreg s.randreg :=
  rfl

theorem pseudorandom16_snd (s : State) :
    (pseudorandom16 s).2 = { s with randreg := nextRandreg s.randreg } :=
  rfl

theorem nextRandreg_eq_specNext (r : Nat) : nextRandreg r = specNext r := by
  unfold nextRandreg specNext
  rw [shiftFeedback_eq_or, feedback_eq_xor]
  rfl

theorem afterCalls_succ (n : Nat) (s : State) :
    afterCalls (n + 1) s = (pseudorandom16 (afterCalls n s)).2 := by
  unfold afterCalls
  rw [Function.iterate_succ_apply']

theorem afterCalls_randreg_lt (n : Nat) (s : State) (h : s.randreg < 65536) :
    (afterCalls n s).randreg < 65536 := by
  cases n with
  | zero => exact h
  | succ n =>
    rw [afterCalls_succ, pseudorandom16_randreg]
    exact shiftFeedback_lt _

/-! ## The claims about the generator -/

/-- C1: one call of `pseudorandom16` stores to `randreg`, and returns, the value
`((s' << 1) mod 2^16) OR f` of the specification (`s' = 1` if the state `s` is zero,
else `s`; `f` the XOR of bits 15, 14, 12 and 3 of `s'`), for every value of
`randreg` and in particular every 16-bit one; no other variable changes.  The
sum `(randreg << 1) + newbit` of the code is the shift-then-OR of the spec. -/
theorem pseudorandom16_eq_specNext (s : State) :
    (pseudorandom16 s).1 = specNext s.randreg ∧
    (pseudorandom16 s).2 = { s with randreg := specNext s.randreg } ∧
    ((reseed s.randreg <<< 1) % 65536 + feedback (reseed s.randreg)) % 65536
      = ((reseed s.randreg <<< 1) % 2 ^ 16) ||| feedback (reseed s.randreg) := by
  refine ⟨?_, ?_, ?_⟩
  · rw [pseudorandom16_fst, nextRandreg_eq_specNext]
  · rw [pseudorandom16_snd, nextRandreg_eq_specNext]
  · exact shiftFeedback_eq_or _

/-- C2, as stated, fails: with `randreg` at the boot seed 10 the first call of
`pseudorandom16` does not return 20. -/
theorem first_draw_ne_twenty :
    reset.randreg = 10 ∧ (pseudorandom16 reset).1 ≠ 20 := by
  decide

/-- C2, amended: with `randreg` at the boot seed 10 the first call of
`pseudorandom16` returns 21, because bit 3 of 10 is set and bits 15, 14 and 12
are clear, so the XOR of the four tapped bits is 1. -/
theorem first_draw_eq_twentyone :
    reset.randreg = 10 ∧ (pseudorandom16 reset).1 = 21 ∧ (pseudorandom16 reset).2.randreg = 21 ∧
    Nat.testBit 10 3 = true ∧ Nat.testBit 10 15 = false ∧ Nat.testBit 10 14 = false ∧
    Nat.testBit 10 12 = false ∧ feedback 10 = 1 := by
  decide

/-- C3: for every 16-bit value of `randreg` before the call (zero included),
`randreg` is non-zero after `pseudorandom16` returns; and the generator state
after any number of calls from the reset state (seed 10) is non-zero. -/
theorem randreg_never_zero :
    (∀ s : State, s.randreg < 2 ^ 16 → (pseudorandom16 s).2.randreg ≠ 0) ∧
    (∀ n : Nat, (afterCalls n reset).randreg ≠ 0) := by
  constructor
  · intro s h
    rw [pseudorandom16_randreg]
    exact nextRandreg_ne_zero _ h
  · intro n
    cases n with
    | zero => decide
    | succ n =>
      rw [afterCalls_succ, pseudorandom16_randreg]
      exact nextRandreg_ne_zero _ (afterCalls_randreg_lt n reset (by decide))

/-- Witness of C3 at the zero state and at three calls from reset. -/
theorem randreg_never_zero_witness :
    (pseudorandom16 { reset with randreg := 0 }).2.randreg ≠ 0 ∧
    (afterCalls 3 reset).randreg ≠ 0 :=
  ⟨randreg_never_zero.1 { reset with randreg := 0 } (by decide), randreg_never_zero.2 3⟩

/-- C4: a call of `pseudorandom16` with `randreg = 0` gives exactly the result and
the state of a call with `randreg = 1`, namely the value 2, whereas the
recurrence without the reseed step (lines 72–77 alone) maps 0 to 0. -/
theorem zero_state_reseeded (s : State) :
    pseudorandom16 { s with randreg := 0 } = pseudorandom16 { s with randreg := 1 } ∧
    (pseudorandom16 { s with randreg := 0 }).1 = 2 ∧
    (pseudorandom16 { s with randreg := 0 }).2.randreg = 2 ∧
    shiftFeedback 0 = 0 := by
  refine ⟨?_, ?_, ?_, ?_⟩
  · rfl
  · show nextRandreg 0 = 2
    decide
  · show nextRandreg 0 = 2
    decide
  · decide

/-! ## The analog sampler -/

theorem wrapInt16_of_range (x : Int) (h1 : -32768 ≤ x) (h2 : x ≤ 32767) : wrapInt16 x = x := by
  unfold wrapInt16
  omega

theorem adcAccumulate_fst (adc : AdcStream) (p : Int × State) (a : Nat)
    (hp : p.1 = (a : Int)) (ha : a ≤ 7161) (hc : adc p.2.adcCount ≤ 1023) :
    (adcAccumulate adc p).1 = ((a + adc p.2.adcCount : Nat) : Int) := by
  have h1 : wrapInt16 (((adc p.2.adcCount / 256 % 256 : Nat) : Int) * 256)
      = ((adc p.2.adcCount / 256 % 256 : Nat) : Int) * 256 :=
    wrapInt16_of_range _ (by omega) (by omega)
  have h2 : wrapInt16 (((adc p.2.adcCount % 256 : Nat) : Int)
      + ((adc p.2.adcCount / 256 % 256 : Nat) : Int) * 256) = ((adc p.2.adcCount : Nat) : Int) := by
    rw [wrapInt16_of_range _ (by omega) (by omega)]
    omega
  show wrapInt16 (p.1 + wrapInt16 (((adc p.2.adcCount % 256 : Nat) : Int)
      + wrapInt16 (((adc p.2.adcCount / 256 % 256 : Nat) : Int) * 256))) = _
  rw [h1, h2, hp, wrapInt16_of_range _ (by omega) (by omega)]
  omega

theorem adcAccumulate_adcCount (adc : AdcStream) (p : Int × State) :
    (adcAccumulate adc p).2.adcCount = p.2.adcCount + 1 :=
  rfl

theorem adcLoop_eight (adc : AdcStream) (p : Int × State) :
    adcLoop adc 8 0 p =
      adcAccumulate adc (adcAccumulate adc (adcAccumulate adc (adcAccumulate adc
        (adcAccumulate adc (adcAccumulate adc (adcAccumulate adc (adcAccumulate adc p))))))) :=
  rfl

/-- The accumulator `ADCr` at the end of the loop of `ADC_read` is the exact sum
of the eight samples: no 16-bit wrap-around has taken place. -/
theorem adcLoop_sum (adc : AdcStream) (s : State)
    (h : ∀ k, 1 ≤ k → k ≤ 8 → adc (s.adcCount + k) ≤ 1023) :
    (adcLoop adc 8 0 ((0 : Int), adcConvert adc { s with ADCSRA := 1 <<< ADEN })).1
      = ((sampleSum adc s.adcCount : Nat) : Int) := by
  have c1 := h 1 (by omega) (by omega)
  have c2 := h 2 (by omega) (by omega)
  have c3 := h 3 (by omega) (by omega)
  have c4 := h 4 (by omega) (by omega)
  have c5 := h 5 (by omega) (by omega)
  have c6 := h 6 (by omega) (by omega)
  have c7 := h 7 (by omega) (by omega)
  have c8 := h 8 (by omega) (by omega)
  rw [adcLoop_eight]
  generalize hp0 : ((0 : Int), adcConvert adc { s with ADCSRA := 1 <<< ADEN }) = p0
  have n0 : p0.2.adcCount = s.adcCount + 1 := by rw [← hp0]; rfl
  have a0 : p0.1 = ((0 : Nat) : Int) := by rw [← hp0]; rfl
  generalize hp1 : adcAccumulate adc p0 = p1
  have n1 : p1.2.adcCount = s.adcCount + 2 := by rw [← hp1, adcAccumulate_adcCount, n0]
  have a1 := adcAccumulate_fst adc p0 0 a0 (by omega) (by rw [n0]; exact c1)
  rw [hp1, n0] at a1
  generalize hp2 : adcAccumulate adc p1 = p2
  have n2 : p2.2.adcCount = s.adcCount + 3 := by rw [← hp2, adcAccumulate_adcCount, n1]
  have a2 := adcAccumulate_fst adc p1 _ a1 (by omega) (by rw [n1]; exact c2)
  rw [hp2, n1] at a2
  generalize hp3 : adcAccumulate adc p2 = p3
  have n3 : p3.2.adcCount = s.adcCount + 4 := by rw [← hp3, adcAccumulate_adcCount, n2]
  have a3 := adcAccumulate_fst adc p2 _ a2 (by omega) (by rw [n2]; exact c3)
  rw [hp3, n2] at a3
  generalize hp4 : adcAccumulate adc p3 = p4
  have n4 : p4.2.adcCount = s.adcCount + 5 := by rw [← hp4, adcAccumulate_adcCount, n3]
  have a4 := adcAccumulate_fst adc p3 _ a3 (by omega) (by rw [n3]; exact c4)
  rw [hp4, n3] at a4
  generalize hp5 : adcAccumulate adc p4 = p5
  have n5 : p5.2.adcCount = s.adcCount + 6 := by rw [← hp5, adcAccumulate_adcCount, n4]
  have a5 := adcAccumulate_fst adc p4 _ a4 (by omega) (by rw [n4]; exact c5)
  rw [hp5, n4] at a5
  generalize hp6 : adcAccumulate adc p5 = p6
  have n6 : p6.2.adcCount = s.adcCount + 7 := by rw [← hp6, adcAccumulate_adcCount, n5]
  have a6 := adcAccumulate_fst adc p5 _ a5 (by omega) (by rw [n5]; exact c6)
  rw [hp6, n5] at a6
  generalize hp7 : adcAccumulate adc p6 = p7
  have n7 : p7.2.adcCount = s.adcCount + 8 := by rw [← hp7, adcAccumulate_adcCount, n6]
  have a7 := adcAccumulate_fst adc p6 _ a6 (by omega) (by rw [n6]; exact c7)
  rw [hp7, n6] at a7
  have a8 := adcAccumulate_fst adc p7 _ a7 (by omega) (by rw [n7]; exact c8)
  rw [n7] at a8
  rw [a8]
  unfold sampleSum
  norm_num

theorem ADC_read_fst (adc : AdcStream) (s : State)
    (h : ∀ k, 1 ≤ k → k ≤ 8 → adc (s.adcCount + k) ≤ 1023) :
    (ADC_read adc s).1 = ((sampleSum adc s.adcCount / 8 : Nat) : Int) := by
  have hs := adcLoop_sum adc s h
  unfold ADC_read
  dsimp only
  rw [hs]
  have hshift : ∀ n : Nat, (n : Int) >>> 3 = ((n >>> 3 : Nat) : Int) := fun _ => rfl
  rw [hshift, Nat.shiftRight_eq_div_pow]

theorem sampleSum_le (adc : AdcStream) (n : Nat)
    (h : ∀ k, 1 ≤ k → k ≤ 8 → adc (n + k) ≤ 1023) : sampleSum adc n ≤ 8184 := by
  have c1 := h 1 (by omega) (by omega)
  have c2 := h 2 (by omega) (by omega)
  have c3 := h 3 (by omega) (by omega)
  have c4 := h 4 (by omega) (by omega)
  have c5 := h 5 (by omega) (by omega)
  have c6 := h 6 (by omega) (by omega)
  have c7 := h 7 (by omega) (by omega)
  have c8 := h 8 (by omega) (by omega)
  unfold sampleSum
  omega

theorem sampleSum_bounds (adc : AdcStream) (n lo hi : Nat)
    (h : ∀ k, 1 ≤ k → k ≤ 8 → lo ≤ adc (n + k) ∧ adc (n + k) ≤ hi) :
    lo ≤ sampleSum adc n / 8 ∧ sampleSum adc n / 8 ≤ hi := by
  have c1 := h 1 (by omega) (by omega)
  have c2 := h 2 (by omega) (by omega)
  have c3 := h 3 (by omega) (by omega)
  have c4 := h 4 (by omega) (by omega)
  have c5 := h 5 (by omega) (by omega)
  have c6 := h 6 (by omega) (by omega)
  have c7 := h 7 (by omega) (by omega)
  have c8 := h 8 (by omega) (by omega)
  unfold sampleSum
  omega

theorem sampleSum_congr (adc adc' : AdcStream) (n : Nat)
    (h : ∀ k, 1 ≤ k → k ≤ 8 → adc' (n + k) = adc (n + k)) :
    sampleSum adc' n = sampleSum adc n := by
  unfold sampleSum
  rw [h 1 (by omega) (by omega), h 2 (by omega) (by omega), h 3 (by omega) (by omega),
    h 4 (by omega) (by omega), h 5 (by omega) (by omega), h 6 (by omega) (by omega),
    h 7 (by omega) (by omega), h 8 (by omega) (by omega)]

/-- C9: whatever the warm-up conversion delivers, if the eight conversions that
follow deliver 10-bit values `c_1 .. c_8` (read as `ADCL + 256*ADCH`), then
`ADC_read` returns `floor((c_1 + ... + c_8) / 8)`; the result does not depend on
the warm-up value (nor on anything but the eight values); the 16-bit `int`
accumulator holds the exact sum, which is at most 8184 and so within the `int`
range; and the result lies between any lower and any upper bound of the `c_i`,
in particular between the smallest and the largest of them. -/
theorem ADC_read_average (adc : AdcStream) (s : State)
    (h : ∀ k, 1 ≤ k → k ≤ 8 → adc (s.adcCount + k) ≤ 1023) :
    (ADC_read adc s).1 = ((sampleSum adc s.adcCount / 8 : Nat) : Int) ∧
    (∀ adc' : AdcStream, (∀ k, 1 ≤ k → k ≤ 8 → adc' (s.adcCount + k) = adc (s.adcCount + k)) →
      (ADC_read adc' s).1 = (ADC_read adc s).1) ∧
    ((adcLoop adc 8 0 ((0 : Int), adcConvert adc { s with ADCSRA := 1 <<< ADEN })).1
        = ((sampleSum adc s.adcCount : Nat) : Int) ∧
      sampleSum adc s.adcCount ≤ 32767) ∧
    (∀ lo hi : Nat,
      (∀ k, 1 ≤ k → k ≤ 8 → lo ≤ adc (s.adcCount + k) ∧ adc (s.adcCount + k) ≤ hi) →
      (lo : Int) ≤ (ADC_read adc s).1 ∧ (ADC_read adc s).1 ≤ (hi : Int)) := by
  refine ⟨ADC_read_fst adc s h, ?_, ⟨adcLoop_sum adc s h, ?_⟩, ?_⟩
  · intro adc' h'
    have hb : ∀ k, 1 ≤ k → k ≤ 8 → adc' (s.adcCount + k) ≤ 1023 := by
      intro k h1 h2
      rw [h' k h1 h2]
      exact h k h1 h2
    rw [ADC_read_fst adc s h, ADC_read_fst adc' s hb, sampleSum_congr adc adc' _ h']
  · have := sampleSum_le adc s.adcCount h
    omega
  · intro lo hi hb
    rw [ADC_read_fst adc s h]
    have := sampleSum_bounds adc s.adcCount lo hi hb
    omega

/-- Witness of C9: the warm-up conversion delivers 0 and the eight that follow
deliver 100, 200, ..., 800; `ADC_read` returns 450. -/
theorem ADC_read_average_witness :
    (∀ k, 1 ≤ k → k ≤ 8 → (fun n => 100 * n) (reset.adcCount + k) ≤ 1023) ∧
    (ADC_read (fun n => 100 * n) reset).1 = 450 :=
  have hw : ∀ k, 1 ≤ k → k ≤ 8 → (fun n => 100 * n) (reset.adcCount + k) ≤ 1023 := by
    intro k _ h2
    show 100 * (0 + k) ≤ 1023
    omega
  ⟨hw, (ADC_read_average (fun n => 100 * n) reset hw).1.trans (by decide)⟩

/-! ## Wake handling -/

theorem wakeHandling_of_flag_clear (adc : AdcStream) (s : State) (h : s.f_wdt ≠ 1) :
    wakeHandling adc s = s := by
  unfold wakeHandling
  rw [if_neg h]

theorem wakeHandling_of_flag_set (adc : AdcStream) (s : State) (h : s.f_wdt = 1) :
    wakeHandling adc s =
      { (ADC_read adc (ADC_init s)).2 with
        adcValue := ((ADC_read adc (ADC_init s)).1 % 256).toNat
        flickerLEDs := if ((ADC_read adc (ADC_init s)).1 % 256).toNat < PHOTO_VALUE then 1 else 0
        f_wdt := 0 } := by
  unfold wakeHandling
  rw [if_pos h]
  dsimp only
  split
  · rename_i hlt
    simp only [if_pos hlt]
  · rename_i hlt
    simp only [if_neg hlt]

/-- C5 fails on the code: when the eight conversions all deliver 256, `ADC_read`
returns 256, which is not below `PHOTO_VALUE = 10`, yet the assignment to the
`uint8_t adcValue` keeps only the low byte 0 and the wake handling selects Dark
(`flickerLEDs = 1`). -/
theorem wake_sample_256_selects_dark :
    (ADC_read (fun _ => 256) (ADC_init reset)).1 = 256 ∧
    ¬ ((256 : Int) < (PHOTO_VALUE : Int)) ∧
    (wakeHandling (fun _ => 256) reset).adcValue = 0 ∧
    (wakeHandling (fun _ => 256) reset).flickerLEDs = 1 := by
  decide

/-- C6: when the sampler returns exactly the threshold value 10, the wake
handling (entered with the wake flag set, so that a sample is taken) selects
Light, `flickerLEDs = 0`, whatever the mode was before. -/
theorem wake_threshold_selects_light (adc : AdcStream) (s : State) (hw : s.f_wdt = 1)
    (hv : (ADC_read adc (ADC_init s)).1 = (PHOTO_VALUE : Int)) :
    (wakeHandling adc s).flickerLEDs = 0 := by
  rw [wakeHandling_of_flag_set adc s hw, hv]
  show (if ((PHOTO_VALUE : Int) % 256).toNat < PHOTO_VALUE then 1 else 0) = 0
  decide

/-- Witness of C6: all conversions deliver 10 and the mode before is Dark. -/
theorem wake_threshold_selects_light_witness :
    ({ reset with flickerLEDs := 1 } : State).f_wdt = 1 ∧
    (ADC_read (fun _ => 10) (ADC_init { reset with flickerLEDs := 1 })).1 = (PHOTO_VALUE : Int) ∧
    (wakeHandling (fun _ => 10) { reset with flickerLEDs := 1 }).flickerLEDs = 0 :=
  ⟨rfl, by decide,
    wake_threshold_selects_light (fun _ => 10) { reset with flickerLEDs := 1 } rfl (by decide)⟩

/-! ## The flicker loop -/

theorem flickerBody_eq (s : State) :
    flickerBody s =
      { s with
        randreg := nextRandreg s.randreg
        PORTB := if nextRandreg s.randreg > s.j then (s.PORTB ^^^ (1 <<< s.i)) % 256
                 else s.PORTB } := by
  unfold flickerBody
  dsimp only
  rw [pseudorandom16_fst, pseudorandom16_snd]
  dsimp only
  split
  · rename_i h
    simp only [if_pos h]
  · rename_i h
    simp only [if_neg h]

theorem flickerLoop_succ (fuel : Nat) (s : State) (h : s.i < 4) :
    flickerLoop (fuel + 1) s =
      flickerLoop fuel { flickerBody s with i := ((flickerBody s).i + 1) % 256 } := by
  show (if s.i < 4 then _ else _) = _
  rw [if_pos h]

theorem xor_one_shiftLeft_testBit (p i k : Nat) (hk : k < 8) :
    ((p ^^^ (1 <<< i)) % 256).testBit k = Bool.xor (p.testBit k) (decide (i = k)) := by
  show ((p ^^^ (1 <<< i)) % 2 ^ 8).testBit k = _
  rw [Nat.testBit_mod_two_pow, Nat.testBit_xor, Nat.one_shiftLeft, Nat.testBit_two_pow]
  simp [hk]

theorem flickerBody_testBit (s : State) (k : Nat) (hk : k < 8) :
    (flickerBody s).PORTB.testBit k =
      Bool.xor (s.PORTB.testBit k) (decide (nextRandreg s.randreg > s.j) && decide (s.i = k)) := by
  rw [flickerBody_eq]
  dsimp only
  split
  · rename_i h
    rw [xor_one_shiftLeft_testBit _ _ _ hk]
    simp [h]
  · rename_i h
    simp [h]

/-- Loop invariant of the flicker loop, read off at exit: output `k` at or above
the counter is toggled iff its own draw exceeds `j`; outputs below are untouched. -/
theorem flickerLoop_testBit (fuel : Nat) : ∀ (s : State), s.i + fuel = 4 →
    ∀ k, k < 4 → (flickerLoop fuel s).PORTB.testBit k =
      if s.i ≤ k then
        Bool.xor (s.PORTB.testBit k) (decide (nextRandreg^[k - s.i + 1] s.randreg > s.j))
      else s.PORTB.testBit k := by
  induction fuel with
  | zero =>
    intro s hs k hk
    have : ¬ s.i ≤ k := by omega
    rw [if_neg this]
    rfl
  | succ fuel ih =>
    intro s hs k hk
    have hi : s.i < 4 := by omega
    rw [flickerLoop_succ fuel s hi]
    have hb := flickerBody_eq s
    have hi' : ({ flickerBody s with i := ((flickerBody s).i + 1) % 256 } : State).i = s.i + 1 := by
      show ((flickerBody s).i + 1) % 256 = s.i + 1
      rw [hb]
      show (s.i + 1) % 256 = s.i + 1
      omega
    have hr : ({ flickerBody s with i := ((flickerBody s).i + 1) % 256 } : State).randreg
        = nextRandreg s.randreg := by
      show (flickerBody s).randreg = _
      rw [hb]
    have hj : ({ flickerBody s with i := ((flickerBody s).i + 1) % 256 } : State).j = s.j := by
      show (flickerBody s).j = _
      rw [hb]
    have hp : ({ flickerBody s with i := ((flickerBody s).i + 1) % 256 } : State).PORTB.testBit k
        = Bool.xor (s.PORTB.testBit k)
            (decide (nextRandreg s.randreg > s.j) && decide (s.i = k)) :=
      flickerBody_testBit s k (by omega)
    rw [ih _ (by rw [hi']; omega) k hk, hi', hr, hj, hp]
    by_cases h1 : s.i + 1 ≤ k
    · have h2 : s.i ≤ k := by omega
      have h3 : ¬ s.i = k := by omega
      have h4 : k - (s.i + 1) + 1 = k - s.i := by omega
      rw [if_pos h1, if_pos h2, h4, Function.iterate_succ_apply]
      simp [h3]
    · rw [if_neg h1]
      by_cases h2 : s.i = k
      · have h3 : s.i ≤ k := by omega
        have h4 : k - s.i + 1 = 1 := by omega
        rw [if_pos h3, h4]
        simp [h2]
      · have h3 : ¬ s.i ≤ k := by omega
        rw [if_neg h3]
        simp [h2]

theorem flickerLoop_frame (fuel : Nat) : ∀ (s : State),
    (flickerLoop fuel s).f_wdt = s.f_wdt ∧ (flickerLoop fuel s).flickerLEDs = s.flickerLEDs ∧
    (flickerLoop fuel s).j = s.j ∧ (flickerLoop fuel s).DDRB = s.DDRB ∧
    (flickerLoop fuel s).adcValue = s.adcValue ∧ (flickerLoop fuel s).adcCount = s.adcCount := by
  induction fuel with
  | zero => intro s; exact ⟨rfl, rfl, rfl, rfl, rfl, rfl⟩
  | succ fuel ih =>
    intro s
    by_cases hi : s.i < 4
    · rw [flickerLoop_succ fuel s hi]
      obtain ⟨h1, h2, h3, h4, h5, h6⟩ := ih { flickerBody s with i := ((flickerBody s).i + 1) % 256 }
      rw [h1, h2, h3, h4, h5, h6, flickerBody_eq]
      exact ⟨rfl, rfl, rfl, rfl, rfl, rfl⟩
    · have : flickerLoop (fuel + 1) s = s := by
        show (if s.i < 4 then _ else _) = _
        rw [if_neg hi]
      rw [this]
      exact ⟨rfl, rfl, rfl, rfl, rfl, rfl⟩

theorem flickerLoop_randreg (fuel : Nat) : ∀ (s : State), s.i + fuel = 4 →
    (flickerLoop fuel s).randreg = nextRandreg^[fuel] s.randreg := by
  induction fuel with
  | zero => intro s _; rfl
  | succ fuel ih =>
    intro s hs
    have hi : s.i < 4 := by omega
    rw [flickerLoop_succ fuel s hi, ih, Function.iterate_succ_apply]
    · show nextRandreg^[fuel] (flickerBody s).randreg = _
      rw [flickerBody_eq]
    · show ((flickerBody s).i + 1) % 256 + fuel = 4
      rw [flickerBody_eq]
      show (s.i + 1) % 256 + fuel = 4
      omega

theorem afterCalls_randreg (n : Nat) (s : State) :
    (afterCalls n s).randreg = nextRandreg^[n] s.randreg := by
  induction n with
  | zero => rfl
  | succ n ih => rw [afterCalls_succ, pseudorandom16_randreg, ih, Function.iterate_succ_apply']

theorem draw_eq (n : Nat) (s : State) : draw n s = nextRandreg^[n + 1] s.randreg := by
  unfold draw
  rw [pseudorandom16_fst, afterCalls_randreg, Function.iterate_succ_apply']

theorem darkBranch_eq (s : State) :
    darkBranch s = flickerLoop 4
      { s with DDRB := 15, randreg := nextRandreg s.randreg, j := nextRandreg s.randreg, i := 0 } :=
  rfl

/-- C7: in one Dark-mode flicker iteration from any state (any generator state,
any `PORTB`), with `j = draw 0 s` the first draw and `r_k = draw (k+1) s` the
four draws that follow, bit `k` of `PORTB` afterwards is bit `k` before XOR
`(r_k > j)`, for `k = 0..3`; in particular a draw equal to `j` leaves its
output as it was.  The variable `j` holds the first draw and `randreg` the
fifth when the iteration ends. -/
theorem dark_iteration_toggles (s : State) (k : Nat) (hk : k < 4) :
    (darkBranch s).PORTB.testBit k
      = Bool.xor (s.PORTB.testBit k) (decide (draw (k + 1) s > draw 0 s)) ∧
    (draw (k + 1) s = draw 0 s → (darkBranch s).PORTB.testBit k = s.PORTB.testBit k) ∧
    (darkBranch s).j = draw 0 s ∧ (darkBranch s).randreg = draw 4 s := by
  have hbit : (darkBranch s).PORTB.testBit k
      = Bool.xor (s.PORTB.testBit k) (decide (draw (k + 1) s > draw 0 s)) := by
    rw [darkBranch_eq, flickerLoop_testBit 4 _ rfl k hk, draw_eq, draw_eq]
    have h0 : (0 : Nat) ≤ k := Nat.zero_le k
    show (if (0 : Nat) ≤ k then
        Bool.xor (s.PORTB.testBit k)
          (decide (nextRandreg^[k - 0 + 1] (nextRandreg s.randreg) > nextRandreg s.randreg))
      else s.PORTB.testBit k) = _
    rw [if_pos h0, Nat.sub_zero, ← Function.iterate_succ_apply]
    rfl
  refine ⟨hbit, ?_, ?_, ?_⟩
  · intro heq
    rw [hbit, heq]
    simp
  · rw [darkBranch_eq, (flickerLoop_frame 4 _).2.2.1, draw_eq]
    rfl
  · rw [darkBranch_eq, flickerLoop_randreg 4 _ rfl, draw_eq]
    show nextRandreg^[4] (nextRandreg s.randreg) = _
    rw [← Function.iterate_succ_apply]

/-- Witness of C7: output 2 in the first flicker iteration from the reset state. -/
theorem dark_iteration_toggles_witness :
    (darkBranch reset).PORTB.testBit 2
      = Bool.xor (reset.PORTB.testBit 2) (decide (draw 3 reset > draw 0 reset)) :=
  (dark_iteration_toggles reset 2 (by decide)).1

/-! ## Frame properties of the branches -/

theorem darkBranch_frame (s : State) :
    (darkBranch s).f_wdt = s.f_wdt ∧ (darkBranch s).flickerLEDs = s.flickerLEDs := by
  rw [darkBranch_eq]
  exact ⟨(flickerLoop_frame 4 _).1, (flickerLoop_frame 4 _).2.1⟩

theorem modeBranch_dark (s : State) (h : s.flickerLEDs = 1) : modeBranch s = darkBranch s := by
  unfold modeBranch
  rw [if_pos h]

theorem modeBranch_light (s : State) (h : s.flickerLEDs ≠ 1) :
    modeBranch s = system_sleep (lightBeforeSleep s) := by
  unfold modeBranch
  rw [if_neg h]
  rfl

theorem wakeHandling_flag (adc : AdcStream) (s : State) (h : s.f_wdt = 0 ∨ s.f_wdt = 1) :
    (wakeHandling adc s).f_wdt = 0 := by
  rcases h with h | h
  · rw [wakeHandling_of_flag_clear adc s (by omega)]
    exact h
  · rw [wakeHandling_of_flag_set adc s h]

theorem loopIteration_flag (adc : AdcStream) (t : Bool) (s : State)
    (h : s.f_wdt = 0 ∨ s.f_wdt = 1) :
    (loopIteration adc t s).f_wdt = 0 ∨ (loopIteration adc t s).f_wdt = 1 := by
  have hw := wakeHandling_flag adc s h
  unfold loopIteration
  cases t
  · by_cases hf : (wakeHandling adc s).flickerLEDs = 1
    · left
      show (modeBranch (wakeHandling adc s)).f_wdt = 0
      rw [modeBranch_dark _ hf, (darkBranch_frame _).1, hw]
    · right
      show (modeBranch (wakeHandling adc s)).f_wdt = 1
      rw [modeBranch_light _ hf]
      rfl
  · right
    rfl

theorem runMain_flag (adc : AdcStream) (timeouts : Nat → Bool) (n : Nat) :
    (runMain adc timeouts n).f_wdt = 0 ∨ (runMain adc timeouts n).f_wdt = 1 := by
  induction n with
  | zero => right; rfl
  | succ n ih => exact loopIteration_flag adc (timeouts n) _ ih

theorem loopIteration_light_off (adc : AdcStream) (t : Bool) (s : State)
    (h : (loopIteration adc t s).flickerLEDs = 0) :
    (loopIteration adc t s).PORTB = 0 ∧ (loopIteration adc t s).DDRB = 0 := by
  by_cases hf : (wakeHandling adc s).flickerLEDs = 1
  · exfalso
    have hd : (loopIteration adc t s).flickerLEDs = 1 := by
      unfold loopIteration
      cases t
      · show (modeBranch (wakeHandling adc s)).flickerLEDs = 1
        rw [modeBranch_dark _ hf, (darkBranch_frame _).2, hf]
      · show (modeBranch (wakeHandling adc s)).flickerLEDs = 1
        rw [modeBranch_dark _ hf, (darkBranch_frame _).2, hf]
    omega
  · unfold loopIteration
    dsimp only
    rw [modeBranch_light _ hf]
    cases t
    · exact ⟨rfl, rfl⟩
    · exact ⟨rfl, rfl⟩

/-- C8: in every main-loop iteration that takes the Light branch (`flickerLEDs`
is not 1, in particular 0, after the wake handling), from any prior `PORTB` and
`DDRB`, the state in which `system_sleep` is invoked has `PORTB = 0x00` and
`DDRB = 0x00`; and at every iteration boundary reachable from reset, Light mode
(`flickerLEDs = 0`) implies `PORTB = 0x00` and `DDRB = 0x00`. -/
theorem light_mode_outputs_off :
    (∀ (adc : AdcStream) (s : State), (wakeHandling adc s).flickerLEDs ≠ 1 →
      modeBranch (wakeHandling adc s) = system_sleep (lightBeforeSleep (wakeHandling adc s)) ∧
      (lightBeforeSleep (wakeHandling adc s)).PORTB = 0 ∧
      (lightBeforeSleep (wakeHandling adc s)).DDRB = 0) ∧
    (∀ (adc : AdcStream) (timeouts : Nat → Bool) (n : Nat),
      (runMain adc timeouts n).flickerLEDs = 0 →
      (runMain adc timeouts n).PORTB = 0 ∧ (runMain adc timeouts n).DDRB = 0) := by
  constructor
  · intro adc s h
    exact ⟨modeBranch_light _ h, rfl, rfl⟩
  · intro adc timeouts n
    cases n with
    | zero => intro _; exact ⟨rfl, rfl⟩
    | succ n => exact loopIteration_light_off adc (timeouts n) _

/-- Witness of C8: a bright sample (1023) with all outputs driven high before,
and the boundary after three iterations under bright light. -/
theorem light_mode_outputs_off_witness :
    (lightBeforeSleep (wakeHandling (fun _ => 1023) { reset with PORTB := 15, DDRB := 15 })).PORTB = 0 ∧
    (runMain (fun _ => 1023) (fun _ => true) 3).PORTB = 0 :=
  ⟨(light_mode_outputs_off.1 (fun _ => 1023) { reset with PORTB := 15, DDRB := 15 }
      (by decide)).2.1,
   (light_mode_outputs_off.2 (fun _ => 1023) (fun _ => true) 3 (by decide)).1⟩

/-- C10: the wake handling leaves `f_wdt = 0` whatever the flag was at entry
(0 or 1, the only values the program ever stores in it, as the boundary states
reachable from reset show); entered with `f_wdt = 0` it changes nothing at all:
no conversion is started (`adcCount` is unchanged) and `flickerLEDs` and
`adcValue` keep their values, whereas entered with `f_wdt = 1` it makes the
nine conversions of one light sample. -/
theorem wake_handling_consumes_flag :
    (∀ (adc : AdcStream) (s : State), s.f_wdt = 0 ∨ s.f_wdt = 1 →
      (wakeHandling adc s).f_wdt = 0) ∧
    (∀ (adc : AdcStream) (timeouts : Nat → Bool) (n : Nat),
      ((runMain adc timeouts n).f_wdt = 0 ∨ (runMain adc timeouts n).f_wdt = 1) ∧
      (wakeHandling adc (runMain adc timeouts n)).f_wdt = 0) ∧
    (∀ (adc : AdcStream) (s : State), s.f_wdt = 0 →
      wakeHandling adc s = s ∧
      (wakeHandling adc s).adcCount = s.adcCount ∧
      (wakeHandling adc s).flickerLEDs = s.flickerLEDs ∧
      (wakeHandling adc s).adcValue = s.adcValue) ∧
    (∀ (adc : AdcStream) (s : State), s.f_wdt = 1 →
      (wakeHandling adc s).adcCount = s.adcCount + 9) := by
  refine ⟨wakeHandling_flag, ?_, ?_, ?_⟩
  · intro adc timeouts n
    exact ⟨runMain_flag adc timeouts n, wakeHandling_flag adc _ (runMain_flag adc timeouts n)⟩
  · intro adc s h
    have hs : wakeHandling adc s = s := wakeHandling_of_flag_clear adc s (by omega)
    rw [hs]
    exact ⟨rfl, rfl, rfl, rfl⟩
  · intro adc s h
    rw [wakeHandling_of_flag_set adc s h]
    rfl

/-- Witness of C10: the flag set (reset state) and the flag clear. -/
theorem wake_handling_consumes_flag_witness :
    (wakeHandling (fun _ => 5) reset).f_wdt = 0 ∧
    wakeHandling (fun _ => 5) { reset with f_wdt := 0 } = { reset with f_wdt := 0 } ∧
    (wakeHandling (fun _ => 5) reset).adcCount = reset.adcCount + 9 :=
  ⟨wake_handling_consumes_flag.1 (fun _ => 5) reset (Or.inr rfl),
   (wake_handling_consumes_flag.2.2.1 (fun _ => 5) { reset with f_wdt := 0 } rfl).1,
   wake_handling_consumes_flag.2.2.2 (fun _ => 5) reset rfl⟩

/-! ## The watchdog -/

/-- C11: the watchdog interrupt handler sets `f_wdt` to 1 and changes no other
program variable or register (`randreg`, `flickerLEDs`, `adcValue`, `i`, `j`,
the ports and all the rest), and it is idempotent: running it twice leaves the
same state as running it once. -/
theorem isr_sets_only_the_flag (s : State) :
    (ISR_WDT_vect s).f_wdt = 1 ∧
    (ISR_WDT_vect s).randreg = s.randreg ∧ (ISR_WDT_vect s).flickerLEDs = s.flickerLEDs ∧
    (ISR_WDT_vect s).adcValue = s.adcValue ∧ (ISR_WDT_vect s).i = s.i ∧
    (ISR_WDT_vect s).j = s.j ∧ (ISR_WDT_vect s).PORTB = s.PORTB ∧
    (ISR_WDT_vect s).DDRB = s.DDRB ∧ (ISR_WDT_vect s).MCUSR = s.MCUSR ∧
    (ISR_WDT_vect s).WDTCR = s.WDTCR ∧ (ISR_WDT_vect s).MCUCR = s.MCUCR ∧
    (ISR_WDT_vect s).ADMUX = s.ADMUX ∧ (ISR_WDT_vect s).ADCSRA = s.ADCSRA ∧
    (ISR_WDT_vect s).ADCL = s.ADCL ∧ (ISR_WDT_vect s).ADCH = s.ADCH ∧
    (ISR_WDT_vect s).sregI = s.sregI ∧ (ISR_WDT_vect s).adcCount = s.adcCount ∧
    ISR_WDT_vect (ISR_WDT_vect s) = ISR_WDT_vect s :=
  ⟨rfl, rfl, rfl, rfl, rfl, rfl, rfl, rfl, rfl, rfl, rfl, rfl, rfl, rfl, rfl, rfl, rfl, rfl⟩

theorem setup_watchdog_MCUSR (s : State) : (setup_watchdog s).MCUSR = s.MCUSR &&& 247 :=
  rfl

theorem setup_watchdog_WDTCR (s : State) : (setup_watchdog s).WDTCR = (s.WDTCR ||| 24) ||| 97 :=
  rfl

/-- C12: with the registers as plain bytes, `setup_watchdog` clears the `WDRF`
bit of `MCUSR` and leaves every other bit of that byte unchanged; it leaves
`WDTCR` with `WDCE`, `WDE`, `WDP3`, `WDP0` and `WDTIE` set and with every bit
that was set before still set; and the global interrupt flag keeps its value
through the first three statements and is set by the fourth, the last one. -/
theorem setup_watchdog_registers (s : State) :
    (setup_watchdog s).MCUSR.testBit WDRF = false ∧
    (∀ k, k < 8 → k ≠ WDRF → (setup_watchdog s).MCUSR.testBit k = s.MCUSR.testBit k) ∧
    ((setup_watchdog s).WDTCR.testBit WDCE = true ∧ (setup_watchdog s).WDTCR.testBit WDE = true ∧
      (setup_watchdog s).WDTCR.testBit WDP3 = true ∧ (setup_watchdog s).WDTCR.testBit WDP0 = true ∧
      (setup_watchdog s).WDTCR.testBit WDTIE = true) ∧
    (∀ k, s.WDTCR.testBit k = true → (setup_watchdog s).WDTCR.testBit k = true) ∧
    setupWatchdogStmts.length = 4 ∧
    setup_watchdog s = setupWatchdogAfter 4 s ∧
    (∀ k, k < 4 → (setupWatchdogAfter k s).sregI = s.sregI) ∧
    (setup_watchdog s).sregI = true := by
  refine ⟨?_, ?_, ⟨?_, ?_, ?_, ?_, ?_⟩, ?_, rfl, rfl, ?_, rfl⟩
  · rw [setup_watchdog_MCUSR, Nat.testBit_and]
    have : Nat.testBit 247 WDRF = false := by decide
    rw [this, Bool.and_false]
  · intro k hk hne
    rw [setup_watchdog_MCUSR, Nat.testBit_and]
    have : Nat.testBit 247 k = true := by
      have hne' : k ≠ 3 := hne
      interval_cases k <;> first | decide | exact absurd rfl hne'
    rw [this, Bool.and_true]
  · rw [setup_watchdog_WDTCR, Nat.testBit_or, Nat.testBit_or]
    have : Nat.testBit 24 WDCE = true := by decide
    simp [this]
  · rw [setup_watchdog_WDTCR, Nat.testBit_or, Nat.testBit_or]
    have : Nat.testBit 24 WDE = true := by decide
    simp [this]
  · rw [setup_watchdog_WDTCR, Nat.testBit_or]
    have : Nat.testBit 97 WDP3 = true := by decide
    simp [this]
  · rw [setup_watchdog_WDTCR, Nat.testBit_or]
    have : Nat.testBit 97 WDP0 = true := by decide
    simp [this]
  · rw [setup_watchdog_WDTCR, Nat.testBit_or]
    have : Nat.testBit 97 WDTIE = true := by decide
    simp [this]
  · intro k hk
    rw [setup_watchdog_WDTCR, Nat.testBit_or, Nat.testBit_or, hk]
    rfl
  · intro k hk
    interval_cases k <;> rfl

/-- Witness of C12: from `MCUSR = 0xFF` only bit `WDRF` is cleared (bit 7 stays
set), a `WDTCR` bit set before (bit 7) stays set, and after two statements the
interrupt flag is still clear. -/
theorem setup_watchdog_registers_witness :
    (setup_watchdog { reset with MCUSR := 255, WDTCR := 128 }).MCUSR.testBit 7 = true ∧
    (setup_watchdog { reset with MCUSR := 255, WDTCR := 128 }).WDTCR.testBit 7 = true ∧
    (setupWatchdogAfter 2 { reset with MCUSR := 255, WDTCR := 128 }).sregI = false :=
  ⟨((setup_watchdog_registers { reset with MCUSR := 255, WDTCR := 128 }).2.1 7
      (by decide) (by decide)).trans (by decide),
   (setup_watchdog_registers { reset with MCUSR := 255, WDTCR := 128 }).2.2.2.1 7 (by decide),
   (setup_watchdog_registers { reset with MCUSR := 255, WDTCR := 128 }).2.2.2.2.2.2.1 2
      (by decide)⟩

/-! ## Injectivity of the generator step -/

theorem feedback_eq_mod (r : Nat) :
    feedback r = (r / 32768 % 2 + r / 16384 % 2 + r / 4096 % 2 + r / 8 % 2) % 2 := by
  rw [feedback_eq_xor]
  have e15 : r.testBit 15 = decide (r / 32768 % 2 = 1) := Nat.testBit_to_div_mod
  have e14 : r.testBit 14 = decide (r / 16384 % 2 = 1) := Nat.testBit_to_div_mod
  have e12 : r.testBit 12 = decide (r / 4096 % 2 = 1) := Nat.testBit_to_div_mod
  have e3 : r.testBit 3 = decide (r / 8 % 2 = 1) := Nat.testBit_to_div_mod
  rw [e15, e14, e12, e3]
  rcases Nat.mod_two_eq_zero_or_one (r / 32768) with h15 | h15 <;>
  rcases Nat.mod_two_eq_zero_or_one (r / 16384) with h14 | h14 <;>
  rcases Nat.mod_two_eq_zero_or_one (r / 4096) with h12 | h12 <;>
  rcases Nat.mod_two_eq_zero_or_one (r / 8) with h3 | h3 <;>
  simp [h15, h14, h12, h3]

theorem shift_add_bit_cancel (a b x y : Nat) (hx : x ≤ 1) (hy : y ≤ 1)
    (h : (a * 2 % 65536 + x) % 65536 = (b * 2 % 65536 + y) % 65536) :
    a % 32768 = b % 32768 ∧ x = y := by
  omega

theorem low_bits_agree (a b : Nat) (h : a % 32768 = b % 32768) :
    a / 16384 % 2 = b / 16384 % 2 ∧ a / 4096 % 2 = b / 4096 % 2 ∧ a / 8 % 2 = b / 8 % 2 := by
  omega

theorem parity_cancel (p q c : Nat) (hp : p < 2) (hq : q < 2) (h : (p + c) % 2 = (q + c) % 2) :
    p = q := by
  omega

theorem shiftFeedback_injective (a b : Nat) (ha : a < 65536) (hb : b < 65536)
    (h : shiftFeedback a = shiftFeedback b) : a = b := by
  have fa := feedback_eq_mod a
  have fb := feedback_eq_mod b
  have hx : feedback a ≤ 1 := feedback_le_one a
  have hy : feedback b ≤ 1 := feedback_le_one b
  unfold shiftFeedback at h
  rw [Nat.shiftLeft_eq, Nat.shiftLeft_eq, pow_one] at h
  obtain ⟨hlow, hxy⟩ := shift_add_bit_cancel a b _ _ hx hy h
  obtain ⟨h14, h12, h3⟩ := low_bits_agree a b hlow
  rw [fa, fb, h14, h12, h3] at hxy
  have ha15 : a / 32768 < 2 := by omega
  have hb15 : b / 32768 < 2 := by omega
  have h15 : a / 32768 = b / 32768 := by
    apply parity_cancel (a / 32768) (b / 32768)
      (b / 16384 % 2 + b / 4096 % 2 + b / 8 % 2) ha15 hb15
    rw [Nat.mod_eq_of_lt ha15, Nat.mod_eq_of_lt hb15] at hxy
    rw [← Nat.add_assoc, ← Nat.add_assoc, ← Nat.add_assoc, ← Nat.add_assoc]
    exact hxy
  omega

theorem nextRandreg_injective (a b : Nat) (ha : a < 65536) (hb : b < 65536)
    (ha0 : a ≠ 0) (hb0 : b ≠ 0) (h : nextRandreg a = nextRandreg b) : a = b := by
  unfold nextRandreg reseed at h
  rw [if_neg ha0, if_neg hb0] at h
  exact shiftFeedback_injective a b ha hb h

theorem nextRandreg_zero : nextRandreg 0 = nextRandreg 1 :=
  rfl

/-- C14: the state update of `pseudorandom16` is injective on non-zero 16-bit
states, and two different 16-bit states with the same successor can only be 0
and 1, which both give 2. -/
theorem pseudorandom16_injective_nonzero :
    (∀ s t : State, s.randreg < 2 ^ 16 → t.randreg < 2 ^ 16 → s.randreg ≠ 0 → t.randreg ≠ 0 →
      (pseudorandom16 s).2.randreg = (pseudorandom16 t).2.randreg → s.randreg = t.randreg) ∧
    (∀ s t : State, s.randreg < 2 ^ 16 → t.randreg < 2 ^ 16 → s.randreg ≠ t.randreg →
      (pseudorandom16 s).2.randreg = (pseudorandom16 t).2.randreg →
      (s.randreg = 0 ∧ t.randreg = 1) ∨ (s.randreg = 1 ∧ t.randreg = 0)) ∧
    (∀ s : State, s.randreg = 0 ∨ s.randreg = 1 → (pseudorandom16 s).2.randreg = 2) := by
  refine ⟨?_, ?_, ?_⟩
  · intro s t hs ht hs0 ht0 h
    rw [pseudorandom16_randreg, pseudorandom16_randreg] at h
    exact nextRandreg_injective _ _ hs ht hs0 ht0 h
  · intro s t hs ht hne h
    rw [pseudorandom16_randreg, pseudorandom16_randreg] at h
    by_cases hs0 : s.randreg = 0
    · left
      refine ⟨hs0, ?_⟩
      have ht0 : t.randreg ≠ 0 := fun e => hne (hs0.trans e.symm)
      rw [hs0, nextRandreg_zero] at h
      exact (nextRandreg_injective 1 _ (by decide) ht (by decide) ht0 h).symm
    · by_cases ht0 : t.randreg = 0
      · right
        refine ⟨?_, ht0⟩
        rw [ht0, nextRandreg_zero] at h
        exact nextRandreg_injective _ 1 hs (by decide) hs0 (by decide) h
      · exact absurd (nextRandreg_injective _ _ hs ht hs0 ht0 h) hne
  · intro s h
    rw [pseudorandom16_randreg]
    rcases h with h | h <;> rw [h] <;> decide

/-- Witness of C14: the states 0 and 1 collide, both giving 2. -/
theorem pseudorandom16_injective_nonzero_witness :
    (({ reset with randreg := 0 } : State).randreg = 0 ∧
       ({ reset with randreg := 1 } : State).randreg = 1) ∨
    (({ reset with randreg := 0 } : State).randreg = 1 ∧
       ({ reset with randreg := 1 } : State).randreg = 0) :=
  pseudorandom16_injective_nonzero.2.1 { reset with randreg := 0 } { reset with randreg := 1 }
    (by decide) (by decide) (by decide) (by decide)

/-! ## Frame properties of the sampler and the first iteration -/

theorem adcAccumulate_randreg (adc : AdcStream) (p : Int × State) :
    (adcAccumulate adc p).2.randreg = p.2.randreg :=
  rfl

theorem adcAccumulate_PORTB (adc : AdcStream) (p : Int × State) :
    (adcAccumulate adc p).2.PORTB = p.2.PORTB :=
  rfl

theorem adcAccumulate_DDRB (adc : AdcStream) (p : Int × State) :
    (adcAccumulate adc p).2.DDRB = p.2.DDRB :=
  rfl

theorem ADC_read_snd (adc : AdcStream) (s : State) :
    (ADC_read adc s).2 =
      { (adcLoop adc 8 0 ((0 : Int), adcConvert adc { s with ADCSRA := 1 <<< ADEN })).2 with
        ADCSRA := 0 <<< ADEN } := by
  unfold ADC_read
  dsimp only

theorem adcLoop_succ (adc : AdcStream) (fuel i : Nat) (p : Int × State) :
    adcLoop adc (fuel + 1) i p =
      if i < 8 then adcLoop adc fuel (i + 1) (adcAccumulate adc p) else p :=
  rfl

theorem adcLoop_frame (adc : AdcStream) (fuel : Nat) : ∀ (i : Nat) (p : Int × State),
    (adcLoop adc fuel i p).2.randreg = p.2.randreg ∧
    (adcLoop adc fuel i p).2.PORTB = p.2.PORTB ∧
    (adcLoop adc fuel i p).2.DDRB = p.2.DDRB := by
  induction fuel with
  | zero => intro i p; exact ⟨rfl, rfl, rfl⟩
  | succ fuel ih =>
    intro i p
    rw [adcLoop_succ]
    by_cases h : i < 8
    · rw [if_pos h]
      obtain ⟨h1, h2, h3⟩ := ih (i + 1) (adcAccumulate adc p)
      rw [h1, h2, h3]
      exact ⟨rfl, rfl, rfl⟩
    · rw [if_neg h]
      exact ⟨rfl, rfl, rfl⟩

theorem adcLoop_adcCount (adc : AdcStream) (p : Int × State) :
    (adcLoop adc 8 0 p).2.adcCount = p.2.adcCount + 8 := by
  rw [adcLoop_eight]
  repeat rw [adcAccumulate_adcCount]

theorem ADC_read_frame (adc : AdcStream) (s : State) :
    (ADC_read adc s).2.randreg = s.randreg ∧ (ADC_read adc s).2.PORTB = s.PORTB ∧
    (ADC_read adc s).2.DDRB = s.DDRB ∧ (ADC_read adc s).2.adcCount = s.adcCount + 9 := by
  have h1 : (ADC_read adc s).2.randreg =
      (adcLoop adc 8 0 ((0 : Int), adcConvert adc { s with ADCSRA := 1 <<< ADEN })).2.randreg := by
    rw [ADC_read_snd]
  have h2 : (ADC_read adc s).2.PORTB =
      (adcLoop adc 8 0 ((0 : Int), adcConvert adc { s with ADCSRA := 1 <<< ADEN })).2.PORTB := by
    rw [ADC_read_snd]
  have h3 : (ADC_read adc s).2.DDRB =
      (adcLoop adc 8 0 ((0 : Int), adcConvert adc { s with ADCSRA := 1 <<< ADEN })).2.DDRB := by
    rw [ADC_read_snd]
  have h4 : (ADC_read adc s).2.adcCount =
      (adcLoop adc 8 0 ((0 : Int), adcConvert adc { s with ADCSRA := 1 <<< ADEN })).2.adcCount := by
    rw [ADC_read_snd]
  obtain ⟨f1, f2, f3⟩ :=
    adcLoop_frame adc 8 0 ((0 : Int), adcConvert adc { s with ADCSRA := 1 <<< ADEN })
  rw [h1, h2, h3, h4, f1, f2, f3, adcLoop_adcCount]
  exact ⟨rfl, rfl, rfl, rfl⟩

theorem wakeHandling_fields (adc : AdcStream) (s : State) (h : s.f_wdt = 1) :
    (wakeHandling adc s).randreg = s.randreg ∧ (wakeHandling adc s).PORTB = s.PORTB ∧
    (wakeHandling adc s).DDRB = s.DDRB ∧ (wakeHandling adc s).adcCount = s.adcCount + 9 ∧
    (wakeHandling adc s).f_wdt = 0 ∧
    (wakeHandling adc s).flickerLEDs =
      (if ((ADC_read adc (ADC_init s)).1 % 256).toNat < PHOTO_VALUE then 1 else 0) := by
  obtain ⟨f1, f2, f3, f4⟩ := ADC_read_frame adc (ADC_init s)
  rw [wakeHandling_of_flag_set adc s h]
  generalize ADC_read adc (ADC_init s) = r at f1 f2 f3 f4
  exact ⟨f1, f2, f3, f4, rfl, rfl⟩

theorem wakeHandling_randreg (adc : AdcStream) (s : State) :
    (wakeHandling adc s).randreg = s.randreg := by
  by_cases h : s.f_wdt = 1
  · exact (wakeHandling_fields adc s h).1
  · rw [wakeHandling_of_flag_clear adc s h]

theorem flickerLoop_high_bits (fuel : Nat) : ∀ (s : State), s.i + fuel = 4 →
    ∀ k, 4 ≤ k → k < 8 → (flickerLoop fuel s).PORTB.testBit k = s.PORTB.testBit k := by
  induction fuel with
  | zero => intro s _ k _ _; rfl
  | succ fuel ih =>
    intro s hs k hk4 hk8
    have hi : s.i < 4 := by omega
    rw [flickerLoop_succ fuel s hi]
    have hb := flickerBody_eq s
    have hi' : ({ flickerBody s with i := ((flickerBody s).i + 1) % 256 } : State).i = s.i + 1 := by
      show ((flickerBody s).i + 1) % 256 = s.i + 1
      rw [hb]
      show (s.i + 1) % 256 = s.i + 1
      omega
    rw [ih _ (by rw [hi']; omega) k hk4 hk8]
    show (flickerBody s).PORTB.testBit k = _
    rw [flickerBody_testBit s k hk8]
    have hne : ¬ s.i = k := by omega
    simp [hne]

/-- C16: in the state in which the main loop is entered (`f_wdt = 1`,
`flickerLEDs = 0`, `randreg = 10`, outputs off; a timeout arriving before the
loop changes nothing since the flag is already set), the first iteration takes
one light sample (nine conversions) and sets the mode from it before the branch
is chosen; at that point `randreg` is still the seed 10, so `pseudorandom16` has
not been called, and `PORTB` and `DDRB` are still 0, so no output has been
toggled, whatever the samples and the timeouts are. -/
theorem first_iteration_checks_light_first (adc : AdcStream) (timeouts : Nat → Bool) :
    ((mainInit reset).f_wdt = 1 ∧ (mainInit reset).flickerLEDs = 0 ∧
      (mainInit reset).randreg = 10 ∧ (mainInit reset).PORTB = 0 ∧
      (mainInit reset).adcCount = 0 ∧ ISR_WDT_vect (mainInit reset) = mainInit reset) ∧
    (wakeHandling adc (mainInit reset)).adcCount = 9 ∧
    (wakeHandling adc (mainInit reset)).flickerLEDs =
      (if ((ADC_read adc (ADC_init (mainInit reset))).1 % 256).toNat < PHOTO_VALUE
        then 1 else 0) ∧
    (wakeHandling adc (mainInit reset)).randreg = 10 ∧
    (wakeHandling adc (mainInit reset)).PORTB = 0 ∧
    (wakeHandling adc (mainInit reset)).DDRB = 0 ∧
    (wakeHandling adc (mainInit reset)).f_wdt = 0 ∧
    runMain adc timeouts 1 =
      (if timeouts 0 then ISR_WDT_vect (modeBranch (wakeHandling adc (mainInit reset)))
        else modeBranch (wakeHandling adc (mainInit reset))) := by
  obtain ⟨f1, f2, f3, f4, f5, f6⟩ := wakeHandling_fields adc (mainInit reset) rfl
  exact ⟨⟨rfl, rfl, rfl, rfl, rfl, rfl⟩, f4, f6, f1, f2, f3, f5, rfl⟩

/-- C17: one Dark-mode flicker iteration advances `randreg` by exactly five
applications of the generator step (five calls of `pseudorandom16`), leaves bits
4..7 of `PORTB` as they were, and sets `DDRB` to `0x0F`; the wake handling, the
Light branch and a whole Light-mode iteration leave `randreg` unchanged. -/
theorem randreg_and_port_frame (adc : AdcStream) (s : State) :
    (darkBranch s).randreg = nextRandreg^[5] s.randreg ∧
    (darkBranch s).randreg = (afterCalls 5 s).randreg ∧
    (∀ k, 4 ≤ k → k < 8 → (darkBranch s).PORTB.testBit k = s.PORTB.testBit k) ∧
    (darkBranch s).DDRB = 0x0F ∧
    (wakeHandling adc s).randreg = s.randreg ∧
    (lightBranch s).randreg = s.randreg ∧
    (∀ t : Bool, (wakeHandling adc s).flickerLEDs ≠ 1 →
      (loopIteration adc t s).randreg = s.randreg) := by
  have h5 : (darkBranch s).randreg = nextRandreg^[5] s.randreg := by
    rw [darkBranch_eq, flickerLoop_randreg 4 _ rfl]
    show nextRandreg^[4] (nextRandreg s.randreg) = _
    rw [← Function.iterate_succ_apply]
  refine ⟨h5, ?_, ?_, ?_, wakeHandling_randreg adc s, rfl, ?_⟩
  · rw [h5, afterCalls_randreg]
  · intro k hk4 hk8
    rw [darkBranch_eq, flickerLoop_high_bits 4 _ rfl k hk4 hk8]
  · rw [darkBranch_eq, (flickerLoop_frame 4 _).2.2.2.1]
  · intro t hf
    have hl : (modeBranch (wakeHandling adc s)).randreg = s.randreg := by
      rw [modeBranch_light _ hf]
      exact wakeHandling_randreg adc s
    unfold loopIteration
    cases t
    · exact hl
    · exact hl

/-- Witness of C17: bit 6 of `PORTB` survives a flicker iteration, and a
Light-mode iteration under bright light keeps the seed. -/
theorem randreg_and_port_frame_witness :
    (darkBranch { reset with PORTB := 64 }).PORTB.testBit 6 = true ∧
    (loopIteration (fun _ => 1023) true reset).randreg = 10 :=
  ⟨((randreg_and_port_frame (fun _ => 0) { reset with PORTB := 64 }).2.2.1 6
      (by decide) (by decide)).trans (by decide),
   (randreg_and_port_frame (fun _ => 1023) reset).2.2.2.2.2.2 true (by decide)⟩

/-! ## The orbit of the seed -/

theorem stepFast_eq (x : Nat) : stepFast x = nextRandreg x := by
  by_cases hx : x = 0
  · subst hx
    decide
  · have hb : Nat.beq x 0 = false := by
      cases h : Nat.beq x 0
      · rfl
      · exact absurd (Nat.eq_of_beq_eq_true h) hx
    unfold stepFast
    rw [hb]
    show (x * 2 + (x / 32768 + x / 16384 + (x / 4096 + x / 8)) % 2) % 65536 = nextRandreg x
    unfold nextRandreg reseed
    rw [if_neg hx]
    unfold shiftFeedback
    rw [feedback_eq_mod, Nat.shiftLeft_eq, pow_one]
    have hpar : ∀ a b c d : Nat, (a % 2 + b % 2 + c % 2 + d % 2) % 2 = (a + b + (c + d)) % 2 := by
      intro a b c d
      omega
    have hmod : ∀ u v : Nat, (u % 65536 + v) % 65536 = (u + v) % 65536 := by
      intro u v
      omega
    rw [hpar, hmod]

theorem walkAvoiding_sound (seed : Nat) (n : Nat) : ∀ (x y : Nat),
    walkAvoiding seed n x = some y →
    nextRandreg^[n] x = y ∧ ∀ m, 1 ≤ m → m ≤ n → nextRandreg^[m] x ≠ seed := by
  induction n with
  | zero =>
    intro x y h
    refine ⟨?_, ?_⟩
    · exact Option.some.inj h
    · intro m h1 h2
      omega
  | succ n ih =>
    intro x y h
    have hstep : walkAvoiding seed (n + 1) x =
        (bif Nat.beq (stepFast x) seed then none else walkAvoiding seed n (stepFast x)) := rfl
    rw [hstep, stepFast_eq] at h
    cases hb : Nat.beq (nextRandreg x) seed
    · rw [hb] at h
      obtain ⟨h1, h2⟩ := ih (nextRandreg x) y h
      refine ⟨?_, ?_⟩
      · rw [Function.iterate_succ_apply]
        exact h1
      · intro m hm1 hm2
        obtain ⟨m', rfl⟩ : ∃ m', m = m' + 1 := ⟨m - 1, by omega⟩
        rw [Function.iterate_succ_apply]
        by_cases hm0 : m' = 0
        · subst hm0
          intro he
          have : Nat.beq (nextRandreg x) seed = true := by
            rw [show nextRandreg x = seed from he]
            exact Nat.beq_refl seed
          rw [hb] at this
          exact Bool.noConfusion this
        · exact h2 m' (by omega) (by omega)
    · rw [hb] at h
      exact Option.noConfusion h

theorem walkMarks_sound (seed len : Nat) (l : List Nat) : ∀ (a z : Nat),
    walkMarks seed len a l = some z →
    nextRandreg^[len * l.length] a = z ∧
      ∀ m, 1 ≤ m → m ≤ len * l.length → nextRandreg^[m] a ≠ seed := by
  induction l with
  | nil =>
    intro a z h
    refine ⟨?_, ?_⟩
    · exact Option.some.inj h
    · intro m h1 h2
      simp at h2
      omega
  | cons b rest ih =>
    intro a z h
    have hstep : walkMarks seed len a (b :: rest) =
        (match walkAvoiding seed len a with
          | none => none
          | some y => bif Nat.beq y b then walkMarks seed len b rest else none) := rfl
    rw [hstep] at h
    cases hw : walkAvoiding seed len a with
    | none =>
      rw [hw] at h
      exact Option.noConfusion h
    | some y =>
      rw [hw] at h
      cases hb : Nat.beq y b
      · simp only [hb] at h
        exact Option.noConfusion h
      · simp only [hb, cond_true] at h
        have hyb : y = b := Nat.eq_of_beq_eq_true hb
        subst hyb
        obtain ⟨w1, w2⟩ := walkAvoiding_sound seed len a y hw
        obtain ⟨r1, r2⟩ := ih y z h
        have hlen : len * (y :: rest).length = len * rest.length + len := by
          rw [List.length_cons, Nat.mul_succ]
        refine ⟨?_, ?_⟩
        · rw [hlen, Function.iterate_add_apply, w1]
          exact r1
        · intro m hm1 hm2
          by_cases hml : m ≤ len
          · exact w2 m hm1 hml
          · obtain ⟨m', rfl⟩ : ∃ m', m = m' + len := ⟨m - len, by omega⟩
            rw [Function.iterate_add_apply, w1]
            exact r2 m' (by omega) (by omega)

theorem seedOrbitMarks_checked : walkMarks 10 1057 10 seedOrbitMarks = some 5 := by
  decide!

/-- From the seed 10 the generator reaches 5 after 65534 steps without meeting
10 on the way. -/
theorem seed_orbit_run :
    nextRandreg^[65534] 10 = 5 ∧ ∀ m, 1 ≤ m → m ≤ 65534 → nextRandreg^[m] 10 ≠ 10 := by
  have h := walkMarks_sound 10 1057 seedOrbitMarks 10 5 seedOrbitMarks_checked
  have hl : 1057 * seedOrbitMarks.length = 65534 := rfl
  rw [hl] at h
  exact h

theorem seed_orbit_return : nextRandreg^[65535] 10 = 10 := by
  show nextRandreg^[65534 + 1] 10 = 10
  rw [Function.iterate_succ_apply', seed_orbit_run.1]
  decide

theorem seed_orbit_lt (n : Nat) : nextRandreg^[n] 10 < 65536 := by
  cases n with
  | zero => decide
  | succ n =>
    rw [Function.iterate_succ_apply']
    exact shiftFeedback_lt _

theorem seed_orbit_ne_zero (n : Nat) : nextRandreg^[n] 10 ≠ 0 := by
  cases n with
  | zero => decide
  | succ n =>
    rw [Function.iterate_succ_apply']
    exact nextRandreg_ne_zero _ (seed_orbit_lt n)

theorem seed_orbit_cancel (a : Nat) : ∀ d : Nat,
    nextRandreg^[a + d] 10 = nextRandreg^[a] 10 → nextRandreg^[d] 10 = 10 := by
  induction a with
  | zero =>
    intro d h
    rw [Nat.zero_add] at h
    exact h
  | succ a ih =>
    intro d h
    have e : a + 1 + d = (a + d) + 1 := by omega
    rw [e, Function.iterate_succ_apply', Function.iterate_succ_apply'] at h
    exact ih d (nextRandreg_injective _ _ (seed_orbit_lt _) (seed_orbit_lt _)
      (seed_orbit_ne_zero _) (seed_orbit_ne_zero _) h)

theorem seed_orbit_injective (a b : Nat) (ha : a < 65535) (hb : b < 65535)
    (h : nextRandreg^[a] 10 = nextRandreg^[b] 10) : a = b := by
  by_contra hne
  rcases Nat.lt_or_gt_of_ne hne with hlt | hgt
  · obtain ⟨d, rfl⟩ : ∃ d, b = a + d := ⟨b - a, by omega⟩
    exact seed_orbit_run.2 d (by omega) (by omega) (seed_orbit_cancel a d h.symm)
  · obtain ⟨d, rfl⟩ : ∃ d, a = b + d := ⟨a - b, by omega⟩
    exact seed_orbit_run.2 d (by omega) (by omega) (seed_orbit_cancel b d h)

theorem seed_orbit_surjective (x : Nat) (hx0 : x ≠ 0) (hx : x < 65536) :
    ∃ n, n < 65535 ∧ nextRandreg^[n] 10 = x := by
  have hsub : (Finset.range 65535).image (fun n => nextRandreg^[n] 10)
      ⊆ (Finset.range 65536).erase 0 := by
    intro y hy
    obtain ⟨n, _, rfl⟩ := Finset.mem_image.1 hy
    exact Finset.mem_erase.2 ⟨seed_orbit_ne_zero n, Finset.mem_range.2 (seed_orbit_lt n)⟩
  have hcard : ((Finset.range 65535).image (fun n => nextRandreg^[n] 10)).card = 65535 := by
    rw [Finset.card_image_of_injOn, Finset.card_range]
    intro a ha b hb h
    exact seed_orbit_injective a b (Finset.mem_range.1 (Finset.mem_coe.1 ha))
      (Finset.mem_range.1 (Finset.mem_coe.1 hb)) h
  have hS : ((Finset.range 65536).erase 0).card = 65535 := by
    rw [Finset.card_erase_of_mem (Finset.mem_range.2 (by omega)), Finset.card_range]
  have heq := Finset.eq_of_subset_of_card_le hsub (by rw [hS, hcard])
  have hmem : x ∈ (Finset.range 65535).image (fun n => nextRandreg^[n] 10) := by
    rw [heq]
    exact Finset.mem_erase.2 ⟨hx0, Finset.mem_range.2 hx⟩
  obtain ⟨n, hn, hnx⟩ := Finset.mem_image.1 hmem
  exact ⟨n, Finset.mem_range.1 hn, hnx⟩

theorem afterCalls_reset (n : Nat) : (afterCalls n reset).randreg = nextRandreg^[n] 10 :=
  afterCalls_randreg n reset

/-- C13: for every 16-bit generator state at the start of a Dark-mode flicker
iteration (zero included), none of the four draws that follow the reference
draw `j = draw 0 s` equals `j`: each of them is either above or below `j`. -/
theorem dark_draws_never_tie (s : State) (h : s.randreg < 2 ^ 16) (k : Nat) (hk : k < 4) :
    draw (k + 1) s ≠ draw 0 s ∧
    (draw (k + 1) s > draw 0 s ∨ draw (k + 1) s < draw 0 s) := by
  have hne : draw (k + 1) s ≠ draw 0 s := by
    rw [draw_eq, draw_eq]
    intro he
    rw [Function.iterate_succ_apply] at he
    have hj0 : nextRandreg s.randreg ≠ 0 := nextRandreg_ne_zero _ h
    have hj : nextRandreg s.randreg < 65536 := shiftFeedback_lt _
    obtain ⟨n, _, hn⟩ := seed_orbit_surjective _ hj0 hj
    have he' : nextRandreg^[k + 1] (nextRandreg s.randreg) = nextRandreg s.randreg := he
    rw [← hn, ← Function.iterate_add_apply] at he'
    have hc := seed_orbit_cancel n (k + 1) (by rw [Nat.add_comm n (k + 1)]; exact he')
    exact seed_orbit_run.2 (k + 1) (by omega) (by omega) hc
  exact ⟨hne, by omega⟩

/-- Witness of C13: the first draw after `j` in the first flicker iteration from
the reset state. -/
theorem dark_draws_never_tie_witness : draw 1 reset ≠ draw 0 reset :=
  (dark_draws_never_tie reset (by decide) 0 (by decide)).1

/-- C15: starting from the boot seed `randreg = 10`, the generator state is 10
again after 65535 calls of `pseudorandom16` and after no smaller positive number
of calls, and the states before the calls `0 .. 65534` of one period are every
non-zero 16-bit value, each exactly once. -/
theorem seed_period_is_65535 :
    reset.randreg = 10 ∧
    (afterCalls 65535 reset).randreg = 10 ∧
    (∀ n, 0 < n → n < 65535 → (afterCalls n reset).randreg ≠ 10) ∧
    (∀ x, 0 < x → x < 2 ^ 16 →
      ∃ n, n < 65535 ∧ (afterCalls n reset).randreg = x ∧
        ∀ m, m < 65535 → (afterCalls m reset).randreg = x → m = n) := by
  refine ⟨rfl, ?_, ?_, ?_⟩
  · rw [afterCalls_reset]
    exact seed_orbit_return
  · intro n h0 hn
    rw [afterCalls_reset]
    exact seed_orbit_run.2 n (by omega) (by omega)
  · intro x hx0 hx
    obtain ⟨n, hn, hnx⟩ := seed_orbit_surjective x (by omega) hx
    refine ⟨n, hn, ?_, ?_⟩
    · rw [afterCalls_reset]
      exact hnx
    · intro m hm hmx
      rw [afterCalls_reset] at hmx
      exact seed_orbit_injective m n hm hn (hmx.trans hnx.symm)

/-- Witness of C15: one call from the seed does not give the seed back, and the
value 21 is met in the period. -/
theorem seed_period_is_65535_witness :
    (afterCalls 1 reset).randreg ≠ 10 ∧
    (∃ n, n < 65535 ∧ (afterCalls n reset).randreg = 21 ∧
      ∀ m, m < 65535 → (afterCalls m reset).randreg = 21 → m = n) :=
  ⟨seed_period_is_65535.2.2.1 1 (by decide) (by decide),
   seed_period_is_65535.2.2.2 21 (by decide) (by decide)⟩

end FakeFire
